import Mathlib

/-!
Verification of the hub-app-server download-counter service.

The service keeps two MongoDB collections:
* `downloadInfo` — the append-only Event Log of download records;
* `totalDownload` — the Counter Store: documents `{_id, count}`, with the
  reserved `_id` `"counter"` holding the global total.

We embed the Counter Store as an association list from ids to counts
(MongoDB `_id`s are unique, and every write in this service goes through
either `$inc`-upsert, plain `$inc`, or `insertOne` with a fixed `_id`,
all of which preserve key uniqueness).  Each `await`ed storage call of a
handler is modelled as one atomic step, matching MongoDB's per-document
atomicity for `findOneAndUpdate` and `insertOne`.
-/

/-- The Counter Store: `totalDownload` collection contents, id ↦ count. -/
abbrev CounterStore := List (String × Nat)

/-- Embeds `findOne {_id: id}` on the counter collection: the stored count,
if the document exists. -/
def lookupC : CounterStore → String → Option Nat
  | [], _ => none
  | (k, v) :: rest, id => if k = id then some v else lookupC rest id

/-- The count an id currently denotes: stored value, or 0 when absent. -/
def countOf (s : CounterStore) (id : String) : Nat :=
  (lookupC s id).getD 0

/-- Embeds the state effect of the atomic
`findOneAndUpdate {_id: id} {$inc: {count: 1}} {upsert: true}`:
add 1 to the document's count, creating the document with count 1 when
absent (`$inc` on a missing field/document starts from 0). -/
def incList : CounterStore → String → CounterStore
  | [], id => [(id, 1)]
  | (k, v) :: rest, id =>
      if k = id then (k, v + 1) :: rest else (k, v) :: incList rest id

/-- Embeds the full atomic upsert-increment with `returnDocument: "after"`:
the new store paired with the post-increment value the driver reports. -/
def incGet (s : CounterStore) (id : String) : CounterStore × Nat :=
  (incList s id, countOf s id + 1)

/-- Embeds `insertOne {_id: id, count: v}`: MongoDB appends the document.
(The service only calls this after checking absence; a concurrent
duplicate insert raises a duplicate-key error instead, modelled at the
call sites.) -/
def insertDoc (s : CounterStore) (id : String) (v : Nat) : CounterStore :=
  s ++ [(id, v)]

/-- Embeds `find {_id: {$ne: "counter"}}` in GET /totaldownloads: every
counter document except the reserved global one. -/
def getAllCounts (s : CounterStore) : List (String × Nat) :=
  s.filter (fun p => p.1 ≠ "counter")

/-- One Event Log (`downloadInfo`) record, as written by the handlers. -/
structure DownloadRecord where
  appId : Option String
  userAgent : String
  ip : String
  createdAt : Nat
deriving DecidableEq

/-- Builds the document the track handlers insert: a missing `userAgent`
in the request body defaults to "Unknown". -/
def mkRecord (appId : Option String) (ua : Option String) (ip : String)
    (now : Nat) : DownloadRecord :=
  ⟨appId, ua.getD "Unknown", ip, now⟩

/-- The whole persistent state: Event Log plus Counter Store. -/
structure St where
  log : List DownloadRecord
  store : CounterStore
deriving DecidableEq

/-- HTTP responses the service produces on its four storage-backed routes. -/
inductive Resp where
  /-- 200 from GET /totaldownloads: mapping of app id to count. -/
  | okCounts (m : List (String × Nat))
  /-- 200 from GET /totaldownloads/:appId: `{ totalDownloadCount }`. -/
  | okCount (n : Nat)
  /-- 200 from the POST routes: `{ success: true, totalDownloadCount, message }`. -/
  | okTrack (n : Nat)
  /-- 500 with `{ error: msg }`, produced by each route's catch block. -/
  | err500 (msg : String)
deriving DecidableEq

/-!
Handlers.  Each takes a failure plan `failAt : Option Nat`: `some k` means
the handler's `k`-th storage operation (0-based, in program order) raises a
storage error — the operation has no effect and control jumps to the
route's catch block.  `none` means every storage operation succeeds.
-/

/-- GET /totaldownloads (src/unnamed/part_001 lines 49-67): read all
non-reserved counters and return them as an id ↦ count mapping. -/
def getAllHandler (failAt : Option Nat) (s : St) : St × Resp :=
  if failAt = some 0 then (s, .err500 "Failed to fetch download counts")
  else (s, .okCounts (getAllCounts s.store))

/-- GET /totaldownloads/:appId (part_001 lines 70-82): `findOne` the
counter; report its count, or 0 when the document is absent. -/
def getAppHandler (failAt : Option Nat) (appId : String) (s : St) :
    St × Resp :=
  if failAt = some 0 then (s, .err500 "Failed to fetch download count")
  else (s, .okCount (countOf s.store appId))

/-- POST /totaldownloads/:appId (part_001 lines 85-121): op 0 inserts the
DownloadRecord, op 1 upsert-increments the appId counter (capturing the
post-increment count for the response), op 2 upsert-increments the
reserved global counter. -/
def postTrackApp (failAt : Option Nat) (appId : String) (ua : Option String)
    (ip : String) (now : Nat) (s : St) : St × Resp :=
  if failAt = some 0 then (s, .err500 "Failed to track download")
  else
    let s1 : St := ⟨s.log ++ [mkRecord (some appId) ua ip now], s.store⟩
    if failAt = some 1 then (s1, .err500 "Failed to track download")
    else
      let r := incGet s1.store appId
      let s2 : St := ⟨s1.log, r.1⟩
      if failAt = some 2 then (s2, .err500 "Failed to track download")
      else (⟨s2.log, incList s2.store "counter"⟩, .okTrack r.2)

/-- POST /totaldownloads (part_001 lines 124-151): op 0 inserts the
DownloadRecord, op 1 runs `findOneAndUpdate {_id:"counter"} {$inc ...}`
with `returnDocument: "after"` but NO upsert: when the global counter
document is absent nothing matches, the driver returns a null document,
and reading `.count` off it throws, landing in the catch block (500). -/
def postTrackGlobal (failAt : Option Nat) (ua : Option String) (ip : String)
    (now : Nat) (s : St) : St × Resp :=
  if failAt = some 0 then (s, .err500 "Failed to track download")
  else
    let s1 : St := ⟨s.log ++ [mkRecord none ua ip now], s.store⟩
    if failAt = some 1 then (s1, .err500 "Failed to track download")
    else
      match lookupC s1.store "counter" with
      | none => (s1, .err500 "Failed to track download")
      | some v => (⟨s1.log, incList s1.store "counter"⟩, .okTrack (v + 1))

/-- Startup `initializeCounter` (part_001 lines 33-46), sequential form:
`findOne` the global counter; when absent, `countDocuments()` on the
Event Log and insert `{_id: "counter", count: <that total>}`. -/
def initCounter (s : St) : St :=
  match lookupC s.store "counter" with
  | some _ => s
  | none => ⟨s.log, insertDoc s.store "counter" s.log.length⟩

/-!
Concurrency model for the counter increments (claim about lost updates).
MongoDB serialises single-document updates, so each `findOneAndUpdate`
with `$inc` is one atomic step on the Counter Store.  An arbitrary
interleaving of concurrent increment calls is therefore an arbitrary
finite sequence of such atomic steps; `incRun` applies one sequence,
each element naming the id that step increments.
-/

/-- Applies a sequence of atomic upsert-increment steps (one per listed
id, in interleaving order) to the Counter Store. -/
def incRun (ids : List String) (s : CounterStore) : CounterStore :=
  ids.foldl incList s

/-!
Concurrency model for startup initialisation racing across instances.
Each racing instance runs `initializeCounter`: (a) `findOne` the global
counter, (b) when absent, `countDocuments()` on the Event Log, then
(c) `insertOne {_id: "counter", count: <total>}`.  Each of (a)-(c) is one
atomic storage step; between a process's steps, other processes may run.
MongoDB enforces `_id` uniqueness, so a concurrent duplicate `insertOne`
fails with a duplicate-key error and leaves the store unchanged.
The Event Log is only read during the race, so its record count is a
fixed `logLen`.
-/

/-- Local state of one racing initialisation attempt.  `pc` counts its
completed atomic steps: 0 before the `findOne`, 1 after it, 2 after the
`countDocuments`, 3 when finished (possibly via duplicate-key error). -/
structure InitProc where
  pc : Nat
  sawAbsent : Bool
  seenK : Nat
deriving DecidableEq

/-- Shared configuration of the initialisation race: the Counter Store,
the fixed Event Log record count, a ghost tally of how many `insertOne`
calls actually created the document, and every process's local state. -/
structure InitConfig where
  store : CounterStore
  logLen : Nat
  creations : Nat
  procs : List InitProc
deriving DecidableEq

/-- One atomic step of process `p` against the shared state: its
`findOne`, its `countDocuments`, or its `insertOne` (which creates the
document only when still absent, and otherwise fails with a
duplicate-key error, leaving the store untouched). -/
def stepShared (c : InitConfig) (p : InitProc) : InitConfig × InitProc :=
  match p with
  | ⟨0, _, sk⟩ => (c, ⟨1, (lookupC c.store "counter").isNone, sk⟩)
  | ⟨1, true, _⟩ => (c, ⟨2, true, c.logLen⟩)
  | ⟨1, false, sk⟩ => (c, ⟨3, false, sk⟩)
  | ⟨2, true, sk⟩ =>
      match lookupC c.store "counter" with
      | none =>
          (⟨insertDoc c.store "counter" sk, c.logLen, c.creations + 1,
            c.procs⟩, ⟨3, true, sk⟩)
      | some _ => (c, ⟨3, true, sk⟩)
  | ⟨2, false, sk⟩ => (c, ⟨3, false, sk⟩)
  | ⟨n + 3, sa, sk⟩ => (c, ⟨n + 3, sa, sk⟩)

/-- Scheduler step: let process `i` take its next atomic step (a step of
a finished or nonexistent process changes nothing). -/
def stepInit (c : InitConfig) (i : Nat) : InitConfig :=
  match c.procs.get? i with
  | none => c
  | some p =>
      let r := stepShared c p
      ⟨r.1.store, r.1.logLen, r.1.creations, c.procs.set i r.2⟩

/-- Runs the initialisation race under an arbitrary interleaving: the
schedule lists which process moves at each instant. -/
def runInit (sched : List Nat) (c : InitConfig) : InitConfig :=
  sched.foldl stepInit c

/-!
Whole-system runs, for reachability of Counter Store states: a state is
reachable when it arises from the empty database by some sequence of the
service's operations (startup initialisation, track requests — each with
an arbitrary failure plan — and reads).
-/

/-- One service operation, with its request data and failure plan. -/
inductive SysOp where
  | initOp : SysOp
  | trackApp (failAt : Option Nat) (appId : String) (ua : Option String)
      (ip : String) (now : Nat) : SysOp
  | trackGlobal (failAt : Option Nat) (ua : Option String) (ip : String)
      (now : Nat) : SysOp
  | readAll (failAt : Option Nat) : SysOp
  | readApp (failAt : Option Nat) (appId : String) : SysOp

/-- State effect of one service operation. -/
def applyOp (s : St) : SysOp → St
  | .initOp => initCounter s
  | .trackApp f a ua ip t => (postTrackApp f a ua ip t s).1
  | .trackGlobal f ua ip t => (postTrackGlobal f ua ip t s).1
  | .readAll f => (getAllHandler f s).1
  | .readApp f a => (getAppHandler f a s).1

/-- Runs a sequence of service operations from the empty database. -/
def runSys (ops : List SysOp) : St :=
  ops.foldl applyOp ⟨[], []⟩

/-- The application ids for which some track request was ever made. -/
def trackedIds (ops : List SysOp) : List String :=
  ops.filterMap (fun op =>
    match op with
    | .trackApp _ a _ _ _ => some a
    | _ => none)

/-!
Helper lemmas about the Counter Store primitives.
-/

/-- The atomic upsert-increment changes only the targeted document: it
takes its count from `n` to `n + 1` (creating it at 1 from absence) and
leaves every other id's lookup unchanged. -/
theorem lookupC_incList (s : CounterStore) (a i : String) :
    lookupC (incList s a) i =
      if a = i then some (countOf s i + 1) else lookupC s i := by
  induction s with
  | nil =>
      by_cases h : a = i <;> simp [incList, lookupC, countOf, h]
  | cons hd tl ih =>
      obtain ⟨k, v⟩ := hd
      by_cases hka : k = a
      · subst hka
        by_cases hki : k = i
        · subst hki
          simp [incList, lookupC, countOf]
        · simp [incList, lookupC, hki]
      · by_cases hki : k = i
        · subst hki
          have hai : ¬ a = k := by
            intro hcon
            exact hka hcon.symm
          simp [incList, lookupC, hka, hai, countOf]
        · simp [incList, lookupC, countOf, hka, hki, ih]

/-- Count form of `lookupC_incList`. -/
theorem countOf_incList (s : CounterStore) (a i : String) :
    countOf (incList s a) i =
      if a = i then countOf s i + 1 else countOf s i := by
  by_cases h : a = i <;> simp [countOf, lookupC_incList, h]

/-- Inserting a document for an id that is absent makes the id resolve
to the inserted count. -/
theorem lookupC_insertDoc (s : CounterStore) (i : String) (v : Nat)
    (h : lookupC s i = none) : lookupC (insertDoc s i v) i = some v := by
  induction s with
  | nil => simp [insertDoc, lookupC]
  | cons hd tl ih =>
      obtain ⟨k, w⟩ := hd
      by_cases hk : k = i
      · simp [lookupC, hk] at h
      · simp only [lookupC, hk, if_false] at h
        simpa [insertDoc, lookupC, hk] using ih h

/-- A document present after an upsert-increment was either its target
or already present before. -/
theorem mem_incList (s : CounterStore) (a : String) (p : String × Nat)
    (h : p ∈ incList s a) : p.1 = a ∨ ∃ v, (p.1, v) ∈ s := by
  induction s with
  | nil =>
      simp only [incList, List.mem_singleton] at h
      subst h
      exact Or.inl rfl
  | cons hd tl ih =>
      obtain ⟨k, v⟩ := hd
      simp only [incList] at h
      by_cases hk : k = a
      · rw [if_pos hk] at h
        rcases List.mem_cons.mp h with h1 | h1
        · subst h1
          exact Or.inl hk
        · exact Or.inr ⟨p.2, List.mem_cons_of_mem _ h1⟩
      · rw [if_neg hk] at h
        rcases List.mem_cons.mp h with h1 | h1
        · subst h1
          exact Or.inr ⟨v, List.mem_cons_self _ _⟩
        · rcases ih h1 with h2 | ⟨w, hw⟩
          · exact Or.inl h2
          · exact Or.inr ⟨w, List.mem_cons_of_mem _ hw⟩

/-!
Invariant of the initialisation race.
-/

/-- Per-process invariant while the counter is still absent: any process
past its read saw the counter absent, has not finished, and, once past
its count step, holds the fixed Event Log total. -/
def procOK (c : InitConfig) (p : InitProc) : Prop :=
  1 ≤ p.pc →
    (p.sawAbsent = true ∧ p.pc ≠ 3 ∧ (2 ≤ p.pc → p.seenK = c.logLen))

/-- Race invariant: either the global counter is still absent, no
creation has happened and every advanced process is bound to create it
with the Event Log total; or it has been created, exactly once, with
exactly that total. -/
def InvInit (c : InitConfig) : Prop :=
  (lookupC c.store "counter" = none ∧ c.creations = 0 ∧
    ∀ p ∈ c.procs, procOK c p)
  ∨ (lookupC c.store "counter" = some c.logLen ∧ c.creations = 1)

/-- A race step never changes the Event Log total. -/
theorem stepShared_logLen (c : InitConfig) (p : InitProc) :
    (stepShared c p).1.logLen = c.logLen := by
  obtain ⟨pc, sa, sk⟩ := p
  match pc, sa with
  | 0, sa => rfl
  | 1, true => rfl
  | 1, false => rfl
  | 2, true =>
      cases h : lookupC c.store "counter" <;> simp [stepShared, h]
  | 2, false => rfl
  | n + 3, sa => rfl

/-- Scheduler steps keep the Event Log total. -/
theorem stepInit_logLen (c : InitConfig) (i : Nat) :
    (stepInit c i).logLen = c.logLen := by
  unfold stepInit
  cases hg : c.procs.get? i with
  | none => rfl
  | some p => exact stepShared_logLen c p

/-- Scheduler steps keep the number of processes. -/
theorem stepInit_procsLength (c : InitConfig) (i : Nat) :
    (stepInit c i).procs.length = c.procs.length := by
  unfold stepInit
  cases hg : c.procs.get? i with
  | none => rfl
  | some p => exact List.length_set c.procs i _

/-- One scheduler step preserves the race invariant. -/
theorem invInit_stepInit (c : InitConfig) (i : Nat) (h : InvInit c) :
    InvInit (stepInit c i) := by
  unfold stepInit
  cases hg : c.procs.get? i with
  | none => exact h
  | some p =>
      obtain ⟨pc, sa, sk⟩ := p
      have hpmem : (⟨pc, sa, sk⟩ : InitProc) ∈ c.procs := List.get?_mem hg
      match pc with
      | 0 =>
          simp only [stepShared, reduceIte]
          rcases h with ⟨hl, hc, hp⟩ | ⟨hl, hc⟩
          · left
            refine ⟨hl, hc, ?_⟩
            intro q hq
            rcases List.mem_or_eq_of_mem_set hq with hq | hq
            · exact hp q hq
            · subst hq
              intro _
              refine ⟨by simp [hl], by simp, ?_⟩
              intro h2
              simp at h2
          · right
            exact ⟨hl, hc⟩
      | 1 =>
          cases sa with
          | true =>
              simp only [stepShared, reduceIte]
              rcases h with ⟨hl, hc, hp⟩ | ⟨hl, hc⟩
              · left
                refine ⟨hl, hc, ?_⟩
                intro q hq
                rcases List.mem_or_eq_of_mem_set hq with hq | hq
                · exact hp q hq
                · subst hq
                  intro _
                  exact ⟨rfl, by simp, fun _ => rfl⟩
              · right
                exact ⟨hl, hc⟩
          | false =>
              simp only [stepShared, reduceIte, Bool.false_eq_true]
              rcases h with ⟨hl, hc, hp⟩ | ⟨hl, hc⟩
              · exact absurd ((hp _ hpmem (by simp)).1) (by simp)
              · right
                exact ⟨hl, hc⟩
      | 2 =>
          cases sa with
          | true =>
              rcases h with ⟨hl, hc, hp⟩ | ⟨hl, hc⟩
              · have hsk : sk = c.logLen :=
                  (hp _ hpmem (by simp)).2.2 (by simp)
                simp only [stepShared, reduceIte, hl]
                right
                constructor
                · rw [lookupC_insertDoc c.store "counter" sk hl, hsk]
                · simp [hc]
              · simp only [stepShared, reduceIte, hl]
                right
                exact ⟨hl, hc⟩
          | false =>
              simp only [stepShared, reduceIte, Bool.false_eq_true]
              rcases h with ⟨hl, hc, hp⟩ | ⟨hl, hc⟩
              · exact absurd ((hp _ hpmem (by simp)).1) (by simp)
              · right
                exact ⟨hl, hc⟩
      | (n + 3) =>
          simp only [stepShared, reduceIte]
          rcases h with ⟨hl, hc, hp⟩ | ⟨hl, hc⟩
          · left
            refine ⟨hl, hc, ?_⟩
            intro q hq
            rcases List.mem_or_eq_of_mem_set hq with hq | hq
            · exact hp q hq
            · subst hq
              exact hp _ hpmem
          · right
            exact ⟨hl, hc⟩

/-- Running any schedule preserves the race invariant. -/
theorem invInit_runInit (sched : List Nat) (c : InitConfig)
    (h : InvInit c) : InvInit (runInit sched c) := by
  induction sched generalizing c with
  | nil => exact h
  | cons i rest ih => exact ih (stepInit c i) (invInit_stepInit c i h)

/-- Running any schedule keeps the Event Log total. -/
theorem runInit_logLen (sched : List Nat) (c : InitConfig) :
    (runInit sched c).logLen = c.logLen := by
  induction sched generalizing c with
  | nil => rfl
  | cons i rest ih =>
      show (runInit rest (stepInit c i)).logLen = c.logLen
      rw [ih, stepInit_logLen]

/-- Running any schedule keeps the number of processes. -/
theorem runInit_procsLength (sched : List Nat) (c : InitConfig) :
    (runInit sched c).procs.length = c.procs.length := by
  induction sched generalizing c with
  | nil => rfl
  | cons i rest ih =>
      show (runInit rest (stepInit c i)).procs.length = c.procs.length
      rw [ih, stepInit_procsLength]

/-!
Claim theorems.
-/

/-- C1: for every counter id and any interleaving of atomic
upsert-increment steps (MongoDB applies each `findOneAndUpdate` `$inc`
atomically per document, so an interleaving of N concurrent
track-download increments of one id is a sequence containing N steps on
that id), the id's final count equals its count before the sequence plus
the number of steps that increment it: no increment is lost. -/
theorem incRun_no_lost_updates (ids : List String) (s : CounterStore)
    (i : String) :
    countOf (incRun ids s) i = countOf s i + ids.count i := by
  induction ids generalizing s with
  | nil => simp [incRun]
  | cons a rest ih =>
      show countOf (incRun rest (incList s a)) i = _
      rw [ih, countOf_incList]
      by_cases h : a = i
      · subst h
        simp [List.count_cons]
        omega
      · simp [List.count_cons, h]

/-- C2: a successful POST /totaldownloads/:appId appends exactly one
DownloadRecord to the Event Log, then increments the appId counter, then
the global counter (the final store is the global increment applied
after the appId increment), and its totalDownloadCount is the
post-increment value of the appId counter — the count it had before the
request plus one — not the global counter's value. -/
theorem postTrackApp_order_and_response (s : St) (a : String)
    (ua : Option String) (ip : String) (t : Nat) :
    (postTrackApp none a ua ip t s).1.log
        = s.log ++ [mkRecord (some a) ua ip t]
    ∧ (postTrackApp none a ua ip t s).1.store
        = incList (incList s.store a) "counter"
    ∧ (postTrackApp none a ua ip t s).2
        = .okTrack (countOf s.store a + 1) := by
  exact ⟨rfl, rfl, rfl⟩

/-- C3 counterexample: with the global counter document absent (empty
Counter Store), POST /totaldownloads does not succeed with
totalDownloadCount 1 — its `findOneAndUpdate` has no `upsert`, matches
nothing, and the handler 500s. -/
theorem postTrackGlobal_absent_counter_cex :
    (postTrackGlobal none none "203.0.113.7" 0 ⟨[], []⟩).2
        = .err500 "Failed to track download"
    ∧ (postTrackGlobal none none "203.0.113.7" 0 ⟨[], []⟩).2
        ≠ .okTrack 1 := by
  exact ⟨rfl, by decide⟩

/-- C3 amended: the increments issued by POST /totaldownloads/:appId
have upsert semantics — on an absent counter a successful request
responds with totalDownloadCount 1 and creates the appId counter at
count 1 — but the increment issued by POST /totaldownloads (no appId)
does not: while the global counter is absent that request fails with the
500 error response, leaving the Counter Store unchanged (the Event Log
record having already been written). -/
theorem upsert_semantics_amended (s : St) (a : String) (ua : Option String)
    (ip : String) (t : Nat) :
    (lookupC s.store a = none →
      (postTrackApp none a ua ip t s).2 = .okTrack 1)
    ∧ (lookupC s.store a = none → a ≠ "counter" →
      lookupC (postTrackApp none a ua ip t s).1.store a = some 1)
    ∧ (lookupC s.store "counter" = none →
      postTrackGlobal none ua ip t s
        = (⟨s.log ++ [mkRecord none ua ip t], s.store⟩,
           .err500 "Failed to track download")) := by
  refine ⟨?_, ?_, ?_⟩
  · intro h
    simp [postTrackApp, incGet, countOf, h]
  · intro h hne
    have h1 : (postTrackApp none a ua ip t s).1.store
        = incList (incList s.store a) "counter" := rfl
    rw [h1, lookupC_incList]
    have : ¬ ("counter" = a) := fun hc => hne hc.symm
    rw [if_neg this, lookupC_incList, if_pos rfl, countOf, h]
    rfl
  · intro h
    simp [postTrackGlobal, h]

/-- C3 amended, witness: on the empty store, tracking "app-x" responds
with count 1 and creates its counter at 1, while the appId-less track
request 500s without touching the Counter Store. -/
theorem upsert_semantics_amended_witness :
    (postTrackApp none "app-x" none "203.0.113.7" 0 ⟨[], []⟩).2
        = .okTrack 1
    ∧ lookupC (postTrackApp none "app-x" none "203.0.113.7" 0
        ⟨[], []⟩).1.store "app-x" = some 1
    ∧ postTrackGlobal none none "203.0.113.7" 0 ⟨[], []⟩
        = (⟨[mkRecord none none "203.0.113.7" 0], []⟩,
           .err500 "Failed to track download") :=
  ⟨(upsert_semantics_amended ⟨[], []⟩ "app-x" none "203.0.113.7" 0).1 rfl,
   (upsert_semantics_amended ⟨[], []⟩ "app-x" none "203.0.113.7" 0).2.1
     rfl (by decide),
   (upsert_semantics_amended ⟨[], []⟩ "app-x" none "203.0.113.7" 0).2.2 rfl⟩

/-- C5: startup initialisation running alone: when the global counter is
absent it is created with count equal to the number of Event Log
records, and when it is already present the whole state is left
unchanged. -/
theorem initCounter_seed_and_idempotent (s : St) :
    (lookupC s.store "counter" = none →
      lookupC (initCounter s).store "counter" = some s.log.length)
    ∧ (∀ v, lookupC s.store "counter" = some v → initCounter s = s) := by
  constructor
  · intro h
    have : (initCounter s).store = insertDoc s.store "counter" s.log.length := by
      simp [initCounter, h]
    rw [this]
    exact lookupC_insertDoc s.store "counter" s.log.length h
  · intro v h
    simp [initCounter, h]

/-- C5 witness: a two-record log seeds an absent counter at 2, and a
present counter (count 7) survives re-initialisation unchanged. -/
theorem initCounter_seed_and_idempotent_witness :
    lookupC (initCounter ⟨[mkRecord none none "198.51.100.1" 0,
        mkRecord (some "app-x") none "198.51.100.1" 1], []⟩).store "counter"
      = some 2
    ∧ initCounter ⟨[], [("counter", 7)]⟩ = ⟨[], [("counter", 7)]⟩ :=
  ⟨(initCounter_seed_and_idempotent _).1 rfl,
   (initCounter_seed_and_idempotent ⟨[], [("counter", 7)]⟩).2 7 (by decide)⟩

/-- C6: whichever storage operation of whichever endpoint fails, the
handler answers the 500 error body for that route (never a stale or zero
value presented as valid), and the side effects of the operations that
completed before the failing one — the Event Log record, an appId
counter increment already applied — remain in place, un-rolled-back. -/
theorem storage_failure_responses (s : St) (a : String) (ua : Option String)
    (ip : String) (t : Nat) :
    getAllHandler (some 0) s
        = (s, .err500 "Failed to fetch download counts")
    ∧ getAppHandler (some 0) a s
        = (s, .err500 "Failed to fetch download count")
    ∧ postTrackApp (some 0) a ua ip t s
        = (s, .err500 "Failed to track download")
    ∧ postTrackApp (some 1) a ua ip t s
        = (⟨s.log ++ [mkRecord (some a) ua ip t], s.store⟩,
           .err500 "Failed to track download")
    ∧ postTrackApp (some 2) a ua ip t s
        = (⟨s.log ++ [mkRecord (some a) ua ip t], incList s.store a⟩,
           .err500 "Failed to track download")
    ∧ postTrackGlobal (some 0) ua ip t s
        = (s, .err500 "Failed to track download")
    ∧ postTrackGlobal (some 1) ua ip t s
        = (⟨s.log ++ [mkRecord none ua ip t], s.store⟩,
           .err500 "Failed to track download") :=
  ⟨rfl, rfl, rfl, rfl, rfl, rfl, rfl⟩

/-- C8: GET /totaldownloads/:appId on an appId whose counter document
does not exist answers `{ totalDownloadCount: 0 }` and leaves the whole
state — in particular the Counter Store — exactly as it was: the read
creates nothing. -/
theorem getApp_absent_zero_no_create (s : St) (a : String)
    (h : lookupC s.store a = none) :
    getAppHandler none a s = (s, .okCount 0) := by
  simp [getAppHandler, countOf, h]

/-- C8 witness: reading "unknown-app" against a store holding only the
global counter returns 0 and the untouched state. -/
theorem getApp_absent_zero_no_create_witness :
    getAppHandler none "unknown-app" ⟨[], [("counter", 3)]⟩
      = (⟨[], [("counter", 3)]⟩, .okCount 0) :=
  getApp_absent_zero_no_create ⟨[], [("counter", 3)]⟩ "unknown-app"
    (by decide)

/-- C9: a successful POST /totaldownloads (no appId) changes only the
reserved global counter: every other id resolves to exactly the same
count as before, the global count goes up by one, and the reported
totalDownloadCount is that post-increment global count. -/
theorem postTrackGlobal_frame (s : St) (ua : Option String) (ip : String)
    (t : Nat) (s' : St) (n : Nat)
    (h : postTrackGlobal none ua ip t s = (s', .okTrack n)) :
    (∀ i, i ≠ "counter" → lookupC s'.store i = lookupC s.store i)
    ∧ countOf s'.store "counter" = countOf s.store "counter" + 1
    ∧ n = countOf s.store "counter" + 1 := by
  unfold postTrackGlobal at h
  simp only [reduceIte] at h
  cases hl : lookupC s.store "counter" with
  | none =>
      rw [show lookupC (⟨s.log ++ [mkRecord none ua ip t], s.store⟩ : St).store
          "counter" = lookupC s.store "counter" from rfl, hl] at h
      simp at h
  | some v =>
      rw [show lookupC (⟨s.log ++ [mkRecord none ua ip t], s.store⟩ : St).store
          "counter" = lookupC s.store "counter" from rfl, hl] at h
      rw [Prod.mk.injEq] at h
      obtain ⟨h1, h2⟩ := h
      have hn : n = v + 1 := by
        cases h2
        rfl
      have hst : s'.store = incList s.store "counter" := by
        rw [← h1]
        rfl
      refine ⟨?_, ?_, ?_⟩
      · intro i hi
        rw [hst, lookupC_incList, if_neg (fun hc => hi hc.symm)]
      · rw [hst, countOf_incList, if_pos rfl]
      · rw [hn, countOf, hl]
        rfl

/-- C9 witness: with the global counter at 2 and an "app-x" counter at
5, the appId-less track request leaves "app-x" at 5, moves the global
counter to 3, and reports 3. -/
theorem postTrackGlobal_frame_witness :
    lookupC ([("counter", 3), ("app-x", 5)] : CounterStore) "app-x"
        = lookupC ([("counter", 2), ("app-x", 5)] : CounterStore) "app-x"
    ∧ countOf ([("counter", 3), ("app-x", 5)] : CounterStore) "counter"
        = countOf ([("counter", 2), ("app-x", 5)] : CounterStore) "counter"
          + 1 := by
  have h := postTrackGlobal_frame
    ⟨[], [("counter", 2), ("app-x", 5)]⟩ none "198.51.100.1" 3
    ⟨[mkRecord none none "198.51.100.1" 3], [("counter", 3), ("app-x", 5)]⟩
    3 (by decide)
  exact ⟨h.1 "app-x" (by decide), h.2.1⟩

/-- C10 counterexample: with the global counter at 5, a single
POST /totaldownloads/counter takes the global counter to 7 (the +2
aliasing is real), but the response's totalDownloadCount is 6 — the
value after the per-app step only — and is NOT the inflated final global
value. -/
theorem reserved_id_response_cex :
    countOf (postTrackApp none "counter" none "192.0.2.9" 0
        ⟨[], [("counter", 5)]⟩).1.store "counter" = 7
    ∧ (postTrackApp none "counter" none "192.0.2.9" 0
        ⟨[], [("counter", 5)]⟩).2 = .okTrack 6
    ∧ (postTrackApp none "counter" none "192.0.2.9" 0
        ⟨[], [("counter", 5)]⟩).2
      ≠ .okTrack (countOf (postTrackApp none "counter" none "192.0.2.9" 0
          ⟨[], [("counter", 5)]⟩).1.store "counter") := by
  refine ⟨by decide, by decide, by decide⟩

/-- C10 amended: the reserved global id is reachable through the per-app
route — POST /totaldownloads/counter increments the global counter's
count by 2 (once as the "per-app" step, once as the global step); the
response's totalDownloadCount is the global counter's value after the
first of those two increments (one more than before the request, one
less than the final inflated value); and the reserved id never appears
in the GET /totaldownloads mapping. -/
theorem reserved_id_double_increment (s : St) (ua : Option String)
    (ip : String) (t : Nat) :
    countOf (postTrackApp none "counter" ua ip t s).1.store "counter"
        = countOf s.store "counter" + 2
    ∧ (postTrackApp none "counter" ua ip t s).2
        = .okTrack (countOf s.store "counter" + 1)
    ∧ ∀ m, ("counter", m)
        ∉ getAllCounts (postTrackApp none "counter" ua ip t s).1.store := by
  refine ⟨?_, rfl, ?_⟩
  · have hst : (postTrackApp none "counter" ua ip t s).1.store
        = incList (incList s.store "counter") "counter" := rfl
    rw [hst, countOf_incList, if_pos rfl, countOf_incList, if_pos rfl]
  · intro m hm
    simp [getAllCounts, List.mem_filter] at hm

/-- C4: when any positive number of initialisation attempts race while
the global counter is absent (Event Log total K fixed during the race),
then under every interleaving in which all attempts run to completion,
exactly one `insertOne` creation takes effect, no attempt double-seeds
or overwrites the created document, and the final created value is
deterministically K — MongoDB's `_id`-unique `insertOne` acts as the
storage-level insert-if-absent even though the absence check itself is
application-level. -/
theorem initRace_single_creation (store0 : CounterStore) (K n : Nat)
    (sched : List Nat) (h0 : lookupC store0 "counter" = none)
    (hn : 0 < n)
    (hdone : ∀ p ∈ (runInit sched
        ⟨store0, K, 0, List.replicate n ⟨0, false, 0⟩⟩).procs, p.pc = 3) :
    lookupC (runInit sched
        ⟨store0, K, 0, List.replicate n ⟨0, false, 0⟩⟩).store "counter"
      = some K
    ∧ (runInit sched
        ⟨store0, K, 0, List.replicate n ⟨0, false, 0⟩⟩).creations = 1 := by
  have hinv : InvInit (runInit sched
      ⟨store0, K, 0, List.replicate n ⟨0, false, 0⟩⟩) := by
    apply invInit_runInit
    left
    refine ⟨h0, rfl, ?_⟩
    intro p hp
    have hrep : p = ⟨0, false, 0⟩ := List.eq_of_mem_replicate hp
    subst hrep
    intro hcon
    simp at hcon
  rcases hinv with ⟨hl, hc, hp⟩ | ⟨hl, hc⟩
  · exfalso
    have hlen : (runInit sched
        ⟨store0, K, 0, List.replicate n ⟨0, false, 0⟩⟩).procs.length = n := by
      rw [runInit_procsLength]
      simp
    have hne : (runInit sched
        ⟨store0, K, 0, List.replicate n ⟨0, false, 0⟩⟩).procs ≠ [] := by
      intro he
      rw [he] at hlen
      simp at hlen
      omega
    obtain ⟨p, hpmem⟩ := List.exists_mem_of_ne_nil _ hne
    have h3 := hdone p hpmem
    have hok := hp p hpmem (by omega)
    exact hok.2.1 h3
  · constructor
    · rw [hl, runInit_logLen]
    · exact hc

/-- C4 witness: two fully interleaved attempts over the empty store with
a 5-record log: both read absence, both count 5, the first insert
creates the counter at 5, the second hits the duplicate-key error; one
creation, final value 5. -/
theorem initRace_single_creation_witness :
    lookupC (runInit [0, 1, 0, 1, 0, 1]
        ⟨[], 5, 0, List.replicate 2 ⟨0, false, 0⟩⟩).store "counter"
      = some 5
    ∧ (runInit [0, 1, 0, 1, 0, 1]
        ⟨[], 5, 0, List.replicate 2 ⟨0, false, 0⟩⟩).creations = 1 :=
  initRace_single_creation [] 5 2 [0, 1, 0, 1, 0, 1] rfl (by decide)
    (by decide)

/-- The per-app track handler's final store is one of: untouched, the
appId increment applied, or both increments applied — whatever the
failure plan. -/
theorem postTrackApp_store_cases (f : Option Nat) (a : String)
    (ua : Option String) (ip : String) (t : Nat) (s : St) :
    (postTrackApp f a ua ip t s).1.store = s.store
    ∨ (postTrackApp f a ua ip t s).1.store = incList s.store a
    ∨ (postTrackApp f a ua ip t s).1.store
        = incList (incList s.store a) "counter" := by
  by_cases h0 : f = some 0
  · left
    simp [postTrackApp, h0]
  · by_cases h1 : f = some 1
    · left
      simp [postTrackApp, h0, h1]
    · by_cases h2 : f = some 2
      · right
        left
        simp [postTrackApp, incGet, h0, h1, h2]
      · right
        right
        simp [postTrackApp, incGet, h0, h1, h2]

/-- The appId-less track handler's final store is untouched or has the
global increment applied. -/
theorem postTrackGlobal_store_cases (f : Option Nat) (ua : Option String)
    (ip : String) (t : Nat) (s : St) :
    (postTrackGlobal f ua ip t s).1.store = s.store
    ∨ (postTrackGlobal f ua ip t s).1.store = incList s.store "counter" := by
  by_cases h0 : f = some 0
  · left
    simp [postTrackGlobal, h0]
  · by_cases h1 : f = some 1
    · left
      simp [postTrackGlobal, h0, h1]
    · cases hl : lookupC s.store "counter" with
      | none => left; simp [postTrackGlobal, h0, h1, hl]
      | some v => right; simp [postTrackGlobal, h0, h1, hl]

/-- The read handlers never change the state. -/
theorem read_handlers_state (f : Option Nat) (a : String) (s : St) :
    (getAllHandler f s).1 = s ∧ (getAppHandler f a s).1 = s := by
  constructor
  · unfold getAllHandler
    split <;> rfl
  · unfold getAppHandler
    split <;> rfl

/-- Every id later in `trackedIds` is still tracked with one more
operation in front. -/
theorem trackedIds_cons_sub (op : SysOp) (ops : List SysOp) (i : String)
    (h : i ∈ trackedIds ops) : i ∈ trackedIds (op :: ops) := by
  cases op <;> simp_all [trackedIds, List.filterMap_cons]

/-- Any id holding a document after a run of service operations is the
reserved global id, an id some track request named, or an id whose
document predates the run. -/
theorem runSys_store_mem (ops : List SysOp) (s : St) (q : String × Nat)
    (h : q ∈ (ops.foldl applyOp s).store) :
    q.1 = "counter" ∨ q.1 ∈ trackedIds ops ∨ ∃ v, (q.1, v) ∈ s.store := by
  induction ops generalizing s with
  | nil => exact Or.inr (Or.inr ⟨q.2, h⟩)
  | cons op rest ih =>
      have hstep := ih (applyOp s op) h
      rcases hstep with h1 | h1 | ⟨v, hv⟩
      · exact Or.inl h1
      · exact Or.inr (Or.inl (trackedIds_cons_sub op rest q.1 h1))
      · cases op with
        | initOp =>
            rcases hli : lookupC s.store "counter" with _ | w
            · have hst : (applyOp s .initOp).store
                  = s.store ++ [("counter", s.log.length)] := by
                simp [applyOp, initCounter, insertDoc, hli]
              rw [hst] at hv
              rcases List.mem_append.mp hv with hv | hv
              · exact Or.inr (Or.inr ⟨v, hv⟩)
              · left
                simpa using congrArg Prod.fst (List.mem_singleton.mp hv)
            · have hst : (applyOp s .initOp).store = s.store := by
                simp [applyOp, initCounter, hli]
              rw [hst] at hv
              exact Or.inr (Or.inr ⟨v, hv⟩)
        | trackApp f a ua ip t =>
            rcases postTrackApp_store_cases f a ua ip t s with hst | hst | hst
            · rw [show applyOp s (.trackApp f a ua ip t)
                  = (postTrackApp f a ua ip t s).1 from rfl, hst] at hv
              exact Or.inr (Or.inr ⟨v, hv⟩)
            · rw [show applyOp s (.trackApp f a ua ip t)
                  = (postTrackApp f a ua ip t s).1 from rfl, hst] at hv
              rcases mem_incList s.store a _ hv with h2 | ⟨w, hw⟩
              · right
                left
                rw [h2]
                simp [trackedIds, List.filterMap_cons]
              · exact Or.inr (Or.inr ⟨w, hw⟩)
            · rw [show applyOp s (.trackApp f a ua ip t)
                  = (postTrackApp f a ua ip t s).1 from rfl, hst] at hv
              rcases mem_incList (incList s.store a) "counter" _ hv with
                h2 | ⟨w, hw⟩
              · exact Or.inl h2
              · rcases mem_incList s.store a _ hw with h3 | ⟨u, hu⟩
                · right
                  left
                  rw [h3]
                  simp [trackedIds, List.filterMap_cons]
                · exact Or.inr (Or.inr ⟨u, hu⟩)
        | trackGlobal f ua ip t =>
            rcases postTrackGlobal_store_cases f ua ip t s with hst | hst
            · rw [show applyOp s (.trackGlobal f ua ip t)
                  = (postTrackGlobal f ua ip t s).1 from rfl, hst] at hv
              exact Or.inr (Or.inr ⟨v, hv⟩)
            · rw [show applyOp s (.trackGlobal f ua ip t)
                  = (postTrackGlobal f ua ip t s).1 from rfl, hst] at hv
              rcases mem_incList s.store "counter" _ hv with h2 | ⟨w, hw⟩
              · exact Or.inl h2
              · exact Or.inr (Or.inr ⟨w, hw⟩)
        | readAll f =>
            rw [show applyOp s (.readAll f) = (getAllHandler f s).1 from rfl,
              (read_handlers_state f "" s).1] at hv
            exact Or.inr (Or.inr ⟨v, hv⟩)
        | readApp f a =>
            rw [show applyOp s (.readApp f a) = (getAppHandler f a s).1
                from rfl, (read_handlers_state f a s).2] at hv
            exact Or.inr (Or.inr ⟨v, hv⟩)

/-- C7: in every Counter Store state the service can reach from the
empty database, the mapping GET /totaldownloads returns contains no
entry for the reserved global id and no entry for an application id that
was never named by a track request: absent ids mean zero, and no
explicit zero records appear for untracked apps. -/
theorem getAll_only_tracked (ops : List SysOp) (i : String) (m : Nat)
    (h : (i, m) ∈ getAllCounts (runSys ops).store) :
    i ≠ "counter" ∧ i ∈ trackedIds ops := by
  have hmem : (i, m) ∈ (runSys ops).store ∧ i ≠ "counter" := by
    have := List.mem_filter.mp h
    refine ⟨this.1, ?_⟩
    simpa using this.2
  refine ⟨hmem.2, ?_⟩
  rcases runSys_store_mem ops ⟨[], []⟩ (i, m) hmem.1 with h1 | h1 | ⟨v, hv⟩
  · exact absurd h1 hmem.2
  · exact h1
  · simp at hv

/-- C7 witness: after initialisation and one tracked "app-x" download,
the mapping holds "app-x" (a tracked, non-reserved id). -/
theorem getAll_only_tracked_witness :
    ("app-x" : String) ≠ "counter"
    ∧ "app-x" ∈ trackedIds [SysOp.initOp,
        SysOp.trackApp none "app-x" none "198.51.100.7" 1] :=
  getAll_only_tracked
    [SysOp.initOp, SysOp.trackApp none "app-x" none "198.51.100.7" 1]
    "app-x" 1 (by decide)
